import Mathlib

/-!
Verification of the Canada-wide income tax calculator
(`tax_calculator_AllofCanada.py`).

Monetary amounts and rates are modelled as exact rationals (`ℚ`); the
Python floats in the source are decimal literals, which `ℚ` represents
exactly.
-/

namespace TaxCalc

/-- Federal tax brackets for 2023 (`FEDERAL_BRACKETS` in the source). -/
def FEDERAL_BRACKETS : List ℚ := [50197, 100392, 155625, 221708]

/-- Federal tax rates for 2023 (`FEDERAL_RATES` in the source). -/
def FEDERAL_RATES : List ℚ := [0.15, 0.205, 0.26, 0.29, 0.33]

/-- A bracket table: the list of upper-bound thresholds paired with the list
of marginal rates, as stored per jurisdiction in `PROVINCIAL_TAX_INFO`. -/
abbrev Table := List ℚ × List ℚ

/-- The provincial tax registry (`PROVINCIAL_TAX_INFO` in the source), in the
source's insertion order. -/
def PROVINCIAL_TAX_INFO : List (String × Table) :=
  [ ("Alberta", ([131220, 157464, 209952, 314928], [0.10, 0.12, 0.13, 0.14, 0.15])),
    ("British Columbia", ([43070, 86141, 98901, 120094, 162832], [0.0506, 0.077, 0.105, 0.1229, 0.147, 0.168])),
    ("Manitoba", ([34670, 73710], [0.108, 0.1275, 0.174])),
    ("New Brunswick", ([45277, 90556, 138491, 160776], [0.0968, 0.1482, 0.1652, 0.1784, 0.203])),
    ("Newfoundland and Labrador", ([39222, 78447, 139780, 200000], [0.087, 0.145, 0.158, 0.183, 0.21])),
    ("Northwest Territories", ([45629, 91259, 147667], [0.059, 0.086, 0.122, 0.1405])),
    ("Nova Scotia", ([29590, 59180, 93000, 150000], [0.0879, 0.1495, 0.1667, 0.175, 0.21])),
    ("Nunavut", ([48229, 96458, 156183], [0.04, 0.07, 0.09, 0.115])),
    ("Ontario", ([46226, 92454, 150000, 220000], [0.0505, 0.0915, 0.1116, 0.1216, 0.1316])),
    ("Prince Edward Island", ([31984, 63969], [0.098, 0.138, 0.167])),
    ("Quebec", ([46295, 92595, 113785, 108390], [0.15, 0.20, 0.24, 0.2575])),
    ("Saskatchewan", ([46677, 133638], [0.105, 0.125, 0.145])),
    ("Yukon", ([51296, 102592, 155625, 500000], [0.064, 0.09, 0.109, 0.128, 0.15])) ]

/-- CPP contribution rate (`CPP_RATE`). -/
def CPP_RATE : ℚ := 0.0525

/-- Maximum CPP contribution per year (`CPP_MAX`). -/
def CPP_MAX : ℚ := 3500

/-- EI contribution rate (`EI_RATE`). -/
def EI_RATE : ℚ := 0.0158

/-- Maximum EI contribution per year (`EI_MAX`). -/
def EI_MAX : ℚ := 889.54

/-- The `for bracket, rate in zip(brackets, rates)` loop of `calculate_tax`.
The mutable state is `last_bracket` and the accumulator `tax`; the `else`
branch adds the partial-bracket amount and breaks out of the loop. -/
def taxLoop (income : ℚ) : List (ℚ × ℚ) → ℚ → ℚ → ℚ
  | [], _, tax => tax
  | (bracket, rate) :: rest, last_bracket, tax =>
    if bracket < income then
      taxLoop income rest bracket (tax + (bracket - last_bracket) * rate)
    else
      tax + (income - last_bracket) * rate

/-- `calculate_tax(income, brackets, rates)` from the source: run the zip
loop, then, if `income > brackets[-1]`, add the residual above the last
threshold at `rates[-1]`.  The `brackets[-1]` / `rates[-1]` indexing assumes
a nonempty bracket list (Python would raise `IndexError` otherwise); it is
modelled by `List.getLastD _ 0`, and theorems about general tables carry a
nonemptiness hypothesis. -/
def calculate_tax (income : ℚ) (brackets rates : List ℚ) : ℚ :=
  let tax := taxLoop income (brackets.zip rates) 0 0
  if brackets.getLastD 0 < income then
    tax + (income - brackets.getLastD 0) * rates.getLastD 0
  else tax

/-- `cpp = income * CPP_RATE if income * CPP_RATE < CPP_MAX else CPP_MAX`. -/
def cpp_contribution (income : ℚ) : ℚ :=
  if income * CPP_RATE < CPP_MAX then income * CPP_RATE else CPP_MAX

/-- `ei = income * EI_RATE if income * EI_RATE < EI_MAX else EI_MAX`. -/
def ei_contribution (income : ℚ) : ℚ :=
  if income * EI_RATE < EI_MAX then income * EI_RATE else EI_MAX

/-- The output frequency radio choices. -/
inductive Frequency
  | Yearly
  | Monthly
  | Biweekly
deriving DecidableEq

/-- `frequency_factor = {'Yearly': 1, 'Monthly': 12, 'Biweekly': 26}[output_frequency]`. -/
def frequency_factor : Frequency → ℚ
  | .Yearly => 1
  | .Monthly => 12
  | .Biweekly => 26

/-- The figures the program displays for one query: the four deductions and
the net income (each already scaled by the display multiplier), plus the
per-province comparison table of (province, scaled net income) rows. -/
structure TaxResult where
  federal_tax : ℚ
  provincial_tax : ℚ
  cpp : ℚ
  ei : ℚ
  net_income : ℚ
  comparison : List (String × ℚ)
deriving DecidableEq

/-- Failure mode of an evaluation: the selected jurisdiction is not in the
registry (in the source, `PROVINCIAL_TAX_INFO[province]` raises `KeyError`;
the spec names this `UnknownJurisdiction`). -/
inductive TaxError
  | UnknownJurisdiction
deriving DecidableEq

/-- The calculation of the `main` block behind the Calculate button: look up
the selected province, compute federal tax, provincial tax, CPP and EI,
scale everything by `multiplier = 1 / frequency_factor`, and build the
per-province comparison table sorted by province name (the
`df.sort_values(by="Province")` step is modelled by `insertionSort` on the
name). -/
def evaluate (income : ℚ) (province : String) (freq : Frequency) :
    Except TaxError TaxResult :=
  match PROVINCIAL_TAX_INFO.lookup province with
  | none => .error .UnknownJurisdiction
  | some tbl =>
    let federal_tax := calculate_tax income FEDERAL_BRACKETS FEDERAL_RATES
    let provincial_tax := calculate_tax income tbl.1 tbl.2
    let cpp := cpp_contribution income
    let ei := ei_contribution income
    let total_deductions := federal_tax + provincial_tax + cpp + ei
    let net_income := income - total_deductions
    let multiplier := 1 / frequency_factor freq
    let results := PROVINCIAL_TAX_INFO.map fun e =>
      (e.1, (income - (federal_tax + calculate_tax income e.2.1 e.2.2 + cpp + ei)) * multiplier)
    .ok { federal_tax := federal_tax * multiplier
          provincial_tax := provincial_tax * multiplier
          cpp := cpp * multiplier
          ei := ei * multiplier
          net_income := net_income * multiplier
          comparison := results.insertionSort (fun a b => a.1 ≤ b.1) }

/-- The BracketTable invariant of the spec: thresholds strictly increasing
and positive, and exactly one more rate than thresholds. -/
def validTable (t : Table) : Prop :=
  List.Chain' (· < ·) t.1 ∧ (∀ b ∈ t.1, 0 < b) ∧ t.2.length = t.1.length + 1

instance (t : Table) : Decidable (validTable t) := by
  unfold validTable; infer_instance

/-- The marginal-rate integral, stated from the spec: walking the thresholds
in order with `prev` the previous threshold (initially 0), every bracket
fully below the income contributes its full width at its rate, the first
bracket whose threshold is ≥ income contributes the remaining income above
`prev` at its rate, and income above every threshold is charged at the top
rate. -/
def marginalTaxSpec (income : ℚ) : List ℚ → List ℚ → ℚ → ℚ
  | b :: bs, r :: rs, prev =>
    if b < income then (b - prev) * r + marginalTaxSpec income bs rs b
    else (income - prev) * r
  | [], r :: _, prev => (income - prev) * r
  | _, [], _ => 0

/-- Sum of the full-width contributions `(bᵢ − bᵢ₋₁) · rᵢ` of a list of
(threshold, rate) pairs, starting from previous threshold `prev`. -/
def fullWidthSum : List (ℚ × ℚ) → ℚ → ℚ
  | [], _ => 0
  | (bracket, rate) :: rest, prev => (bracket - prev) * rate + fullWidthSum rest bracket

/-- The Quebec table exactly as shipped in `PROVINCIAL_TAX_INFO`. -/
def quebecTable : Table :=
  ([46295, 92595, 113785, 108390], [0.15, 0.20, 0.24, 0.2575])

/-- Divide every monetary figure of a result by `k` (the relation the spec
asserts between cadences: monthly figures are the yearly ones over 12,
biweekly over 26). -/
def divideResult (k : ℚ) (r : TaxResult) : TaxResult :=
  { federal_tax := r.federal_tax / k
    provincial_tax := r.provincial_tax / k
    cpp := r.cpp / k
    ei := r.ei / k
    net_income := r.net_income / k
    comparison := r.comparison.map fun e => (e.1, e.2 / k) }

/-- `getLastD` of a nonempty list does not depend on the fallback. -/
lemma getLastD_ne_nil {l : List ℚ} (h : l ≠ []) (d₁ d₂ : ℚ) :
    l.getLastD d₁ = l.getLastD d₂ := by
  cases l with
  | nil => exact absurd rfl h
  | cons a t => rw [List.getLastD_cons, List.getLastD_cons]

/-- Along a strictly increasing list, the head is at most the last element. -/
lemma le_getLastD_of_chain :
    ∀ (bs : List ℚ) (b : ℚ), List.Chain' (· < ·) (b :: bs) → b ≤ bs.getLastD b
  | [], _, _ => le_refl _
  | c :: bs', b, h => by
    rw [List.getLastD_cons]
    have hbc : b < c := (List.chain'_cons.mp h).1
    exact hbc.le.trans (le_getLastD_of_chain bs' c (List.chain'_cons.mp h).2)

/-- The zip loop of `calculate_tax` followed by the `income > brackets[-1]`
residual step computes exactly the marginal-rate integral, for any strictly
increasing remaining threshold list `bs`, one more rate than thresholds,
and any loop state with `last_bracket = prev ≤ income`. -/
lemma taxLoop_spec (income : ℚ) :
    ∀ (bs rs : List ℚ) (prev tax : ℚ),
      rs.length = bs.length + 1 →
      List.Chain' (· < ·) bs →
      prev ≤ income →
      taxLoop income (bs.zip rs) prev tax +
          (if bs.getLastD prev < income then
            (income - bs.getLastD prev) * rs.getLastD 0 else 0) =
        tax + marginalTaxSpec income bs rs prev
  | [], rs, prev, tax, hlen, _, hprev => by
    match rs, hlen with
    | [r], _ =>
      simp only [List.zip_nil_left, taxLoop, List.getLastD_nil, List.getLastD_cons,
        marginalTaxSpec]
      rcases lt_or_eq_of_le hprev with h | h
      · rw [if_pos h]
      · subst h
        rw [if_neg (lt_irrefl _), sub_self, zero_mul, add_zero]
  | b :: bs', rs, prev, tax, hlen, hchain, hprev => by
    match rs, hlen with
    | r :: rs', hlen =>
      have hlen' : rs'.length = bs'.length + 1 := by
        simpa using hlen
      have hrs' : rs' ≠ [] := by
        intro h
        rw [h] at hlen'
        exact absurd hlen'.symm (Nat.succ_ne_zero _)
      rw [List.zip_cons_cons, List.getLastD_cons, List.getLastD_cons,
        getLastD_ne_nil hrs' r 0]
      by_cases hb : b < income
      · have ih := taxLoop_spec income bs' rs' b (tax + (b - prev) * r) hlen'
          hchain.tail hb.le
        rw [taxLoop, if_pos hb, ih, marginalTaxSpec, if_pos hb]
        ring
      · rw [taxLoop, if_neg hb, marginalTaxSpec, if_neg hb]
        have hle : income ≤ bs'.getLastD b :=
          (not_lt.mp hb).trans (le_getLastD_of_chain bs' b hchain)
        rw [if_neg (not_lt.mpr hle), add_zero]

/-- `calculate_tax` on a well-formed nonempty bracket table equals the
marginal-rate integral `marginalTaxSpec`. -/
lemma calculate_tax_eq_spec (income : ℚ) (brackets rates : List ℚ)
    (hne : brackets ≠ []) (hlen : rates.length = brackets.length + 1)
    (hchain : List.Chain' (· < ·) brackets) (h0 : 0 ≤ income) :
    calculate_tax income brackets rates = marginalTaxSpec income brackets rates 0 := by
  have key := taxLoop_spec income brackets rates 0 0 hlen hchain h0
  rw [zero_add] at key
  rw [calculate_tax, getLastD_ne_nil hne 0 (0 : ℚ)] at *
  rw [← key]
  split <;> simp

/-- On a strictly increasing chain `prev :: bs` with non-negative rates and
`prev ≤ income`, the marginal-rate integral is non-negative. -/
lemma marginalTaxSpec_nonneg (income : ℚ) :
    ∀ (bs rs : List ℚ) (prev : ℚ),
      List.Chain' (· < ·) (prev :: bs) →
      (∀ r ∈ rs, 0 ≤ r) →
      prev ≤ income →
      0 ≤ marginalTaxSpec income bs rs prev
  | [], [], _, _, _, _ => le_refl _
  | [], r :: _, prev, _, hr, hprev => by
    rw [marginalTaxSpec]
    exact mul_nonneg (sub_nonneg.mpr hprev) (hr r (List.mem_cons_self r _))
  | _ :: _, [], _, _, _, _ => le_refl _
  | b :: bs', r :: rs', prev, hchain, hr, hprev => by
    rw [marginalTaxSpec]
    have hr0 : 0 ≤ r := hr r (List.mem_cons_self r _)
    by_cases hb : b < income
    · rw [if_pos hb]
      have h1 : 0 ≤ (b - prev) * r :=
        mul_nonneg (sub_nonneg.mpr (List.chain'_cons.mp hchain).1.le) hr0
      have h2 := marginalTaxSpec_nonneg income bs' rs' b hchain.tail
        (fun x hx => hr x (List.mem_cons_of_mem r hx)) hb.le
      exact add_nonneg h1 h2
    · rw [if_neg hb]
      exact mul_nonneg (sub_nonneg.mpr hprev) hr0

/-- On a strictly increasing chain `prev :: bs` with non-negative rates, the
marginal-rate integral is monotone in the income. -/
lemma marginalTaxSpec_mono (x y : ℚ) (hxy : x ≤ y) :
    ∀ (bs rs : List ℚ) (prev : ℚ),
      List.Chain' (· < ·) (prev :: bs) →
      (∀ r ∈ rs, 0 ≤ r) →
      prev ≤ x →
      marginalTaxSpec x bs rs prev ≤ marginalTaxSpec y bs rs prev
  | [], [], _, _, _, _ => le_refl _
  | [], r :: _, prev, _, hr, _ => by
    rw [marginalTaxSpec, marginalTaxSpec]
    exact mul_le_mul_of_nonneg_right (sub_le_sub_right hxy prev)
      (hr r (List.mem_cons_self r _))
  | _ :: _, [], _, _, _, _ => le_refl _
  | b :: bs', r :: rs', prev, hchain, hr, hprev => by
    rw [marginalTaxSpec, marginalTaxSpec]
    have hr0 : 0 ≤ r := hr r (List.mem_cons_self r _)
    have hrtail : ∀ x_1 ∈ rs', (0:ℚ) ≤ x_1 :=
      fun z hz => hr z (List.mem_cons_of_mem r hz)
    by_cases hbx : b < x
    · rw [if_pos hbx, if_pos (lt_of_lt_of_le hbx hxy)]
      exact add_le_add_left
        (marginalTaxSpec_mono x y hxy bs' rs' b hchain.tail hrtail hbx.le) _
    · rw [if_neg hbx]
      by_cases hby : b < y
      · rw [if_pos hby]
        have h1 : (x - prev) * r ≤ (b - prev) * r :=
          mul_le_mul_of_nonneg_right (sub_le_sub_right (not_lt.mp hbx) prev) hr0
        have h2 : 0 ≤ marginalTaxSpec y bs' rs' b :=
          marginalTaxSpec_nonneg y bs' rs' b hchain.tail hrtail hby.le
        linarith
      · rw [if_neg hby]
        exact mul_le_mul_of_nonneg_right (sub_le_sub_right hxy prev) hr0

/-- At an income exactly equal to a threshold, the marginal-rate integral is
the sum of the full-width contributions of the brackets up to and including
the one ending at that threshold. -/
lemma marginalTaxSpec_at_threshold (b : ℚ) (bs₂ : List ℚ) :
    ∀ (bs₁ rates : List ℚ) (prev : ℚ),
      (∀ x ∈ bs₁, x < b) →
      bs₁.length + 1 ≤ rates.length →
      marginalTaxSpec b (bs₁ ++ b :: bs₂) rates prev =
        fullWidthSum ((bs₁ ++ [b]).zip rates) prev
  | [], rates, prev, _, hlen => by
    match rates, hlen with
    | r :: rs, _ =>
      simp only [List.nil_append, List.zip_cons_cons, List.zip_nil_left,
        marginalTaxSpec, fullWidthSum]
      rw [if_neg (lt_irrefl b), add_zero]
  | x :: bs₁', rates, prev, hlt, hlen => by
    match rates, hlen with
    | r :: rs, hlen =>
      rw [List.cons_append, marginalTaxSpec, if_pos (hlt x (List.mem_cons_self x bs₁')),
        List.cons_append, List.zip_cons_cons, fullWidthSum,
        marginalTaxSpec_at_threshold b bs₂ bs₁' rs x
          (fun z hz => hlt z (List.mem_cons_of_mem x hz)) (by simpa using hlen)]

/-- **C1.** On a well-formed nonempty bracket table (strictly increasing
positive thresholds, one more rate than thresholds; the source's
`brackets[-1]` presupposes nonemptiness), `calculate_tax` computes the
marginal-rate integral `marginalTaxSpec`; in particular the tax on an
income of 0 is 0, and the tax on any income at most the first threshold is
`income * rates[0]`. -/
theorem claim_C1 :
    ∀ (brackets rates : List ℚ),
      brackets ≠ [] →
      List.Chain' (· < ·) brackets →
      (∀ b ∈ brackets, 0 < b) →
      rates.length = brackets.length + 1 →
      (∀ income : ℚ, 0 ≤ income →
          calculate_tax income brackets rates = marginalTaxSpec income brackets rates 0) ∧
      calculate_tax 0 brackets rates = 0 ∧
      (∀ income : ℚ, 0 ≤ income → ∀ b0 bs, brackets = b0 :: bs → income ≤ b0 →
          calculate_tax income brackets rates = income * rates.headD 0) := by
  intro brackets rates hne hchain hpos hlen
  have main : ∀ income : ℚ, 0 ≤ income →
      calculate_tax income brackets rates = marginalTaxSpec income brackets rates 0 :=
    fun income h0 => calculate_tax_eq_spec income brackets rates hne hlen hchain h0
  refine ⟨main, ?_, ?_⟩
  · rw [main 0 (le_refl 0)]
    match brackets, hne, rates, hlen with
    | b0 :: bs, _, r :: rs, _ =>
      rw [marginalTaxSpec, if_neg (not_lt.mpr (hpos b0 (List.mem_cons_self b0 bs)).le),
        sub_zero, zero_mul]
  · intro income h0 b0 bs hbr hle
    subst hbr
    rw [main income h0]
    match rates, hlen with
    | r :: rs, _ =>
      rw [marginalTaxSpec, if_neg (not_lt.mpr hle), sub_zero, List.headD_cons]

/-- Witness for C1 on the federal table, at incomes 60000, 0 and 30000. -/
theorem claim_C1_witness :
    calculate_tax 60000 FEDERAL_BRACKETS FEDERAL_RATES =
      marginalTaxSpec 60000 FEDERAL_BRACKETS FEDERAL_RATES 0 ∧
    calculate_tax 0 FEDERAL_BRACKETS FEDERAL_RATES = 0 ∧
    calculate_tax 30000 FEDERAL_BRACKETS FEDERAL_RATES = 30000 * FEDERAL_RATES.headD 0 := by
  have h := claim_C1 FEDERAL_BRACKETS FEDERAL_RATES
    (by simp [FEDERAL_BRACKETS])
    (by norm_num [FEDERAL_BRACKETS, List.chain'_cons])
    (by norm_num [FEDERAL_BRACKETS])
    (by norm_num [FEDERAL_BRACKETS, FEDERAL_RATES])
  exact ⟨h.1 60000 (by norm_num), h.2.1,
    h.2.2 30000 (by norm_num) 50197 [100392, 155625, 221708] rfl (by norm_num)⟩

/-- **C2.** On a well-formed table, an income exactly equal to a threshold
does not exceed it: the tax is the sum of the full-width contributions of
the brackets up to and including the one ending at that threshold, with no
contribution from later brackets or from the above-top-threshold residual. -/
theorem claim_C2 :
    ∀ (bs₁ bs₂ : List ℚ) (b : ℚ) (rates : List ℚ),
      List.Chain' (· < ·) (bs₁ ++ b :: bs₂) →
      (∀ x ∈ bs₁ ++ b :: bs₂, 0 < x) →
      rates.length = (bs₁ ++ b :: bs₂).length + 1 →
      calculate_tax b (bs₁ ++ b :: bs₂) rates = fullWidthSum ((bs₁ ++ [b]).zip rates) 0 := by
  intro bs₁ bs₂ b rates hchain hpos hlen
  have hb : 0 ≤ b :=
    (hpos b (List.mem_append_right bs₁ (List.mem_cons_self b bs₂))).le
  have hne : bs₁ ++ b :: bs₂ ≠ [] := by simp
  rw [calculate_tax_eq_spec b _ rates hne hlen hchain hb]
  have hpair : List.Pairwise (· < ·) (bs₁ ++ b :: bs₂) :=
    List.chain'_iff_pairwise.mp hchain
  have hlt : ∀ x ∈ bs₁, x < b :=
    fun x hx =>
      (List.pairwise_append.mp hpair).2.2 x hx b (List.mem_cons_self b bs₂)
  refine marginalTaxSpec_at_threshold b bs₂ bs₁ rates 0 hlt ?_
  rw [hlen]
  simp only [List.length_append, List.length_cons]
  omega

/-- Witness for C2 on the federal table at the second threshold 100392. -/
theorem claim_C2_witness :
    calculate_tax 100392 ([50197] ++ 100392 :: [155625, 221708]) FEDERAL_RATES =
      fullWidthSum ((([50197] : List ℚ) ++ [100392]).zip FEDERAL_RATES) 0 :=
  claim_C2 [50197] [155625, 221708] 100392 FEDERAL_RATES
    (by norm_num [List.chain'_cons])
    (by norm_num)
    (by norm_num [FEDERAL_RATES])

/-- **C3.** On a well-formed nonempty bracket table with non-negative rates,
`calculate_tax` is monotone non-decreasing in income. -/
theorem claim_C3 :
    ∀ (brackets rates : List ℚ),
      brackets ≠ [] →
      List.Chain' (· < ·) brackets →
      (∀ b ∈ brackets, 0 < b) →
      (∀ r ∈ rates, 0 ≤ r) →
      rates.length = brackets.length + 1 →
      ∀ x y : ℚ, 0 ≤ x → x ≤ y →
        calculate_tax x brackets rates ≤ calculate_tax y brackets rates := by
  intro brackets rates hne hchain hpos hr hlen x y hx hxy
  rw [calculate_tax_eq_spec x brackets rates hne hlen hchain hx,
    calculate_tax_eq_spec y brackets rates hne hlen hchain (hx.trans hxy)]
  have hchain0 : List.Chain' (· < ·) ((0:ℚ) :: brackets) := by
    match brackets, hne with
    | b0 :: bs, _ =>
      exact List.chain'_cons.mpr ⟨hpos b0 (List.mem_cons_self b0 bs), hchain⟩
  exact marginalTaxSpec_mono x y hxy brackets rates 0 hchain0 hr hx

/-- Witness for C3 on the federal table at incomes 40000 ≤ 120000. -/
theorem claim_C3_witness :
    calculate_tax 40000 FEDERAL_BRACKETS FEDERAL_RATES ≤
      calculate_tax 120000 FEDERAL_BRACKETS FEDERAL_RATES :=
  claim_C3 FEDERAL_BRACKETS FEDERAL_RATES
    (by simp [FEDERAL_BRACKETS])
    (by norm_num [FEDERAL_BRACKETS, List.chain'_cons])
    (by norm_num [FEDERAL_BRACKETS])
    (by norm_num [FEDERAL_RATES])
    (by norm_num [FEDERAL_BRACKETS, FEDERAL_RATES])
    40000 120000 (by norm_num) (by norm_num)

/-- `if a < b then a else b` is the minimum, whichever side the tie goes. -/
lemma ite_lt_eq_min (a b : ℚ) : (if a < b then a else b) = min a b := by
  rcases le_or_lt b a with h | h
  · rw [if_neg (not_lt.2 h), min_eq_right h]
  · rw [if_pos h, min_eq_left h.le]

/-- **C5.** For every non-negative income, the CPP contribution equals
`min (income * 0.0525) 3500` and the EI contribution equals
`min (income * 0.0158) 889.54`; hence neither exceeds its cap, and at an
income of 1,000,000 the contributions are exactly 3500 and 889.54. -/
theorem claim_C5 :
    (∀ income : ℚ, 0 ≤ income →
      cpp_contribution income = min (income * 0.0525) 3500 ∧
      ei_contribution income = min (income * 0.0158) 889.54 ∧
      cpp_contribution income ≤ 3500 ∧
      ei_contribution income ≤ 889.54) ∧
    cpp_contribution 1000000 = 3500 ∧ ei_contribution 1000000 = 889.54 := by
  refine ⟨fun income _ => ?_, by norm_num [cpp_contribution, CPP_RATE, CPP_MAX],
    by norm_num [ei_contribution, EI_RATE, EI_MAX]⟩
  have hc : cpp_contribution income = min (income * 0.0525) 3500 := by
    rw [cpp_contribution, CPP_RATE, CPP_MAX, ite_lt_eq_min]
  have he : ei_contribution income = min (income * 0.0158) 889.54 := by
    rw [ei_contribution, EI_RATE, EI_MAX, ite_lt_eq_min]
  exact ⟨hc, he, hc ▸ min_le_right _ _, he ▸ min_le_right _ _⟩

/-- Witness for C5 at the concrete income 10. -/
theorem claim_C5_witness :
    cpp_contribution 10 = min (10 * 0.0525) 3500 ∧
    ei_contribution 10 = min (10 * 0.0158) 889.54 ∧
    cpp_contribution 10 ≤ 3500 ∧ ei_contribution 10 ≤ 889.54 :=
  claim_C5.1 10 (by norm_num)

/-- **C8, as claimed** is false: `calculate_tax 60000` on the federal table
is 9539.165, not 9539.92 (the spec's decimal evaluation of
`(60000 − 50197) × 0.205` as 2010.37 is an arithmetic slip; it is
2009.615). -/
theorem claim_C8_counterexample :
    calculate_tax 60000 FEDERAL_BRACKETS FEDERAL_RATES ≠ 9539.92 := by
  norm_num [calculate_tax, taxLoop, FEDERAL_BRACKETS, FEDERAL_RATES]

/-- **C8, amended.** On the federal table, the tax on an income of 60000 is
`50197 × 0.15 + (60000 − 50197) × 0.205 = 7529.55 + 2009.615 = 9539.165`. -/
theorem claim_C8 :
    calculate_tax 60000 FEDERAL_BRACKETS FEDERAL_RATES =
      50197 * 0.15 + (60000 - 50197) * 0.205 ∧
    calculate_tax 60000 FEDERAL_BRACKETS FEDERAL_RATES = 9539.165 := by
  norm_num [calculate_tax, taxLoop, FEDERAL_BRACKETS, FEDERAL_RATES]

/-- **C9.** A province absent from the registry fails with
`UnknownJurisdiction` and produces no result at all (the evaluation is
exactly the error value). -/
theorem claim_C9 :
    ∀ (income : ℚ) (freq : Frequency) (province : String),
      PROVINCIAL_TAX_INFO.lookup province = none →
      evaluate income province freq = .error .UnknownJurisdiction := by
  intro income freq province h
  unfold evaluate
  rw [h]

/-- Witness for C9 at the unknown province "Atlantis". -/
theorem claim_C9_witness :
    evaluate 50000 "Atlantis" Frequency.Yearly = .error .UnknownJurisdiction :=
  claim_C9 50000 Frequency.Yearly "Atlantis" (by decide)

/-- **C10.** On the Quebec table exactly as shipped (thresholds not
ascending), `calculate_tax` is not monotone: the tax at income 113786 is
strictly below the tax at income 113000. -/
theorem claim_C10 :
    PROVINCIAL_TAX_INFO.lookup "Quebec" = some quebecTable ∧
    ∃ x y : ℚ, 0 ≤ x ∧ x < y ∧
      calculate_tax y quebecTable.1 quebecTable.2 <
        calculate_tax x quebecTable.1 quebecTable.2 := by
  refine ⟨rfl, 113000, 113786, by norm_num, by norm_num, ?_⟩
  norm_num [calculate_tax, taxLoop, quebecTable]

/-- **C4, as claimed** is false: the Quebec table violates the BracketTable
invariant (its rate list has length 4, the same as its threshold list, and
its thresholds are not ascending). -/
theorem claim_C4_counterexample :
    PROVINCIAL_TAX_INFO.lookup "Quebec" = some quebecTable ∧ ¬ validTable quebecTable := by
  refine ⟨rfl, fun h => ?_⟩
  have := h.2.2
  norm_num [quebecTable] at this

/-- **C4, amended.** The federal table and every registry table except
Quebec satisfy the BracketTable invariant; the Quebec table has
non-ascending thresholds and as many rates as thresholds. -/
theorem claim_C4 :
    validTable (FEDERAL_BRACKETS, FEDERAL_RATES) ∧
    (∀ e ∈ PROVINCIAL_TAX_INFO, e.1 ≠ "Quebec" → validTable e.2) ∧
    (∀ e ∈ PROVINCIAL_TAX_INFO, e.1 = "Quebec" →
      ¬ List.Chain' (· < ·) e.2.1 ∧ e.2.2.length = e.2.1.length) := by
  refine ⟨?_, ?_, ?_⟩
  · refine ⟨?_, ?_, ?_⟩ <;>
      norm_num [FEDERAL_BRACKETS, FEDERAL_RATES, List.chain'_cons]
  · intro e he hne
    fin_cases he <;>
      first
        | (exact absurd rfl hne)
        | (refine ⟨?_, ?_, ?_⟩ <;> norm_num [List.chain'_cons])
  · intro e he hq
    fin_cases he <;>
      first
        | (exact absurd hq (by decide))
        | (exact ⟨fun h => by norm_num [List.chain'_cons] at h, by norm_num⟩)

/-- Witness for C4's quantified parts, at the Alberta entry. -/
theorem claim_C4_witness :
    validTable ([131220, 157464, 209952, 314928], [0.10, 0.12, 0.13, 0.14, 0.15]) :=
  claim_C4.2.1 ("Alberta", ([131220, 157464, 209952, 314928], [0.10, 0.12, 0.13, 0.14, 0.15]))
    (by simp [PROVINCIAL_TAX_INFO]) (by simp)

/-- The registry's names are listed in lexicographically non-decreasing
order. -/
lemma names_chain : List.Chain' (· ≤ ·) (PROVINCIAL_TAX_INFO.map Prod.fst) := by
  simp only [PROVINCIAL_TAX_INFO, List.map_cons, List.map_nil, List.chain'_cons]
  refine ⟨?_, ?_, ?_, ?_, ?_, ?_, ?_, ?_, ?_, ?_, ?_, ?_, by constructor⟩
  all_goals rw [String.le_iff_toList_le]
  all_goals decide

/-- The registry, compared on names, is pairwise non-decreasing. -/
lemma names_pairwise :
    List.Pairwise (fun a b : String × Table => a.1 ≤ b.1) PROVINCIAL_TAX_INFO := by
  have hp := List.chain'_iff_pairwise.mp names_chain
  rw [List.pairwise_map] at hp
  exact hp

/-- Any per-jurisdiction list built over the registry by pairing each name
with a value is already sorted by name. -/
lemma comparison_sorted (f : String × Table → ℚ) :
    List.Sorted (fun a b : String × ℚ => a.1 ≤ b.1)
      (PROVINCIAL_TAX_INFO.map fun e => (e.1, f e)) := by
  rw [List.Sorted, List.pairwise_map]
  dsimp only
  exact names_pairwise

/-- An unknown province evaluates to the `UnknownJurisdiction` error. -/
lemma evaluate_unknown (income : ℚ) (province : String) (freq : Frequency)
    (h : PROVINCIAL_TAX_INFO.lookup province = none) :
    evaluate income province freq = .error .UnknownJurisdiction := by
  unfold evaluate
  rw [h]

/-- Closed form of `evaluate` on a known province: the sort leaves the
comparison list (already in name order) unchanged. -/
lemma evaluate_eq (income : ℚ) (province : String) (freq : Frequency) (tbl : Table)
    (h : PROVINCIAL_TAX_INFO.lookup province = some tbl) :
    evaluate income province freq = .ok {
      federal_tax :=
        calculate_tax income FEDERAL_BRACKETS FEDERAL_RATES * (1 / frequency_factor freq)
      provincial_tax := calculate_tax income tbl.1 tbl.2 * (1 / frequency_factor freq)
      cpp := cpp_contribution income * (1 / frequency_factor freq)
      ei := ei_contribution income * (1 / frequency_factor freq)
      net_income :=
        (income - (calculate_tax income FEDERAL_BRACKETS FEDERAL_RATES +
          calculate_tax income tbl.1 tbl.2 +
          cpp_contribution income + ei_contribution income)) * (1 / frequency_factor freq)
      comparison := PROVINCIAL_TAX_INFO.map fun e =>
        (e.1, (income - (calculate_tax income FEDERAL_BRACKETS FEDERAL_RATES +
          calculate_tax income e.2.1 e.2.2 +
          cpp_contribution income + ei_contribution income)) * (1 / frequency_factor freq)) } := by
  have hs := (comparison_sorted
    (fun e => (income - (calculate_tax income FEDERAL_BRACKETS FEDERAL_RATES +
      calculate_tax income e.2.1 e.2.2 +
      cpp_contribution income + ei_contribution income)) *
        (1 / frequency_factor freq))).insertionSort_eq
  unfold evaluate
  rw [h]
  refine congrArg Except.ok ?_
  rw [hs]

/-- Looking a key up in a name-keyed list built over the registry recovers
the value built for that key. -/
lemma lookup_map_fst (g : String × Table → ℚ) (k : String) :
    ∀ l : List (String × Table),
      List.lookup k (l.map fun e => (e.1, g e)) =
        Option.map (fun t => g (k, t)) (List.lookup k l)
  | [] => rfl
  | (a, v) :: t => by
    cases hk : k == a with
    | true =>
      have hka : k = a := eq_of_beq hk
      subst hka
      simp [List.lookup, hk]
    | false =>
      simp [List.lookup, hk, lookup_map_fst g k t]

/-- **C6.** Frequency conversion is uniform and linear: the whole result at
Monthly cadence is the Yearly result with every monetary figure (deductions,
net income, and every comparison entry) divided by 12, and at Biweekly
cadence divided by 26. -/
theorem claim_C6 :
    ∀ (income : ℚ) (province : String),
      evaluate income province Frequency.Monthly =
        Except.map (divideResult 12) (evaluate income province Frequency.Yearly) ∧
      evaluate income province Frequency.Biweekly =
        Except.map (divideResult 26) (evaluate income province Frequency.Yearly) := by
  intro income province
  cases hlook : PROVINCIAL_TAX_INFO.lookup province with
  | none =>
    rw [evaluate_unknown income province Frequency.Monthly hlook,
      evaluate_unknown income province Frequency.Biweekly hlook,
      evaluate_unknown income province Frequency.Yearly hlook]
    exact ⟨rfl, rfl⟩
  | some tbl =>
    constructor <;>
    · rw [evaluate_eq income province _ tbl hlook, evaluate_eq income province _ tbl hlook]
      simp only [Except.map, divideResult, frequency_factor]
      refine congrArg Except.ok ?_
      congr 1 <;>
        first
          | (rw [List.map_map]
             refine List.map_congr_left fun e _ => ?_
             simp only [Function.comp_apply, Prod.mk.injEq]
             exact ⟨trivial, by ring⟩)
          | ring

/-- **C7.** On a known province, the comparison table is exactly one entry
per registry jurisdiction — the name paired with
`(income − (federal tax + that jurisdiction's tax + CPP + EI)) · multiplier`,
reusing the federal tax and contributions of the primary result — its names
are the registry's names in sorted (pairwise non-decreasing) order, and the
entry for the selected province equals the result's own scaled net income. -/
theorem claim_C7 :
    ∀ (income : ℚ) (province : String) (freq : Frequency) (tbl : Table),
      PROVINCIAL_TAX_INFO.lookup province = some tbl →
      ∀ r : TaxResult, evaluate income province freq = .ok r →
        r.comparison = (PROVINCIAL_TAX_INFO.map fun e =>
          (e.1, (income - (calculate_tax income FEDERAL_BRACKETS FEDERAL_RATES +
            calculate_tax income e.2.1 e.2.2 +
            cpp_contribution income + ei_contribution income)) *
              (1 / frequency_factor freq))) ∧
        r.comparison.map Prod.fst = PROVINCIAL_TAX_INFO.map Prod.fst ∧
        List.Pairwise (· ≤ ·) (r.comparison.map Prod.fst) ∧
        r.comparison.lookup province = some r.net_income := by
  intro income province freq tbl hlook r hr
  rw [evaluate_eq income province freq tbl hlook] at hr
  have hrec := Except.ok.inj hr
  subst hrec
  have hfst : (PROVINCIAL_TAX_INFO.map fun e =>
      (e.1, (income - (calculate_tax income FEDERAL_BRACKETS FEDERAL_RATES +
        calculate_tax income e.2.1 e.2.2 +
        cpp_contribution income + ei_contribution income)) *
          (1 / frequency_factor freq))).map Prod.fst =
      PROVINCIAL_TAX_INFO.map Prod.fst := by
    rw [List.map_map]
    rfl
  refine ⟨rfl, hfst, ?_, ?_⟩
  · rw [hfst]
    exact List.chain'_iff_pairwise.mp names_chain
  · rw [lookup_map_fst, hlook]
    rfl

/-- Witness for C7 at province "Alberta", income 0, Yearly cadence. -/
theorem claim_C7_witness :
    (evaluate 0 "Alberta" Frequency.Yearly).toOption.map
        (fun r => r.comparison.map Prod.fst) =
      some (PROVINCIAL_TAX_INFO.map Prod.fst) := by
  cases h : evaluate 0 "Alberta" Frequency.Yearly with
  | error e =>
    rw [evaluate_eq 0 "Alberta" Frequency.Yearly
      ([131220, 157464, 209952, 314928], [0.10, 0.12, 0.13, 0.14, 0.15]) rfl] at h
    exact Except.noConfusion h
  | ok r =>
    have hc := claim_C7 0 "Alberta" Frequency.Yearly
      ([131220, 157464, 209952, 314928], [0.10, 0.12, 0.13, 0.14, 0.15]) rfl r h
    simp only [Except.toOption]
    exact congrArg some hc.2.1

end TaxCalc
